import Mathlib

/-!
# Verification of the Nest checkout-automation service

A shallow embedding of the core pipeline of the repository
(calendar polling, the idempotency ledger, the device-control client,
OAuth token management, and the per-event orchestration), together with
theorems settling the specification claims about it.

Modelling conventions:
* instants (`datetime` values) are integers counting seconds;
* Python's `set` of reservation ids is a duplicate-free `List String`;
* Python's `dict` is an association list with insert-or-overwrite
  semantics preserving insertion order;
* network effects are passed in as explicit oracles (an attempt oracle
  mapping the attempt index to an HTTP status or exception class).
-/

namespace NestCheckout

/-! ## String helpers mirroring Python string operations -/

/-- Membership test of `needle` as a contiguous substring of the
character list `hay` — Python's `needle in hay`. An empty needle is
contained in everything. -/
def containsSub (needle : List Char) : List Char → Bool
  | [] => needle.isEmpty
  | c :: rest => needle.isPrefixOf (c :: rest) || containsSub needle rest

/-- Case-insensitive match of `key` against the beginning of `s`;
on success returns the remainder of `s`. -/
def dropCaseKey : List Char → List Char → Option (List Char)
  | [], s => some s
  | _ :: _, [] => none
  | k :: ks, c :: cs => if k.toLower = c.toLower then dropCaseKey ks cs else none

/-- Case-sensitive match of `key` against the beginning of `s`;
on success returns the remainder of `s`. -/
def dropKey : List Char → List Char → Option (List Char)
  | [], s => some s
  | _ :: _, [] => none
  | k :: ks, c :: cs => if k = c then dropKey ks cs else none

/-- A character accepted by the `[A-Z0-9]+` character class under
`re.IGNORECASE` (letters of either case, or digits). -/
def isResIdChar (c : Char) : Bool := c.isAlpha || c.isDigit

/-- Attempt to match `Reservation:\s*([A-Z0-9]+)` (ignoring case) at the
head of `s`, returning the captured id characters. -/
def matchResAt (s : List Char) : Option (List Char) :=
  match dropCaseKey ("reservation:".toList) s with
  | none => none
  | some rest =>
    let idc := (rest.dropWhile Char.isWhitespace).takeWhile isResIdChar
    if idc.isEmpty then none else some idc

/-- Model of `re.search` for the reservation-id pattern: try every position left
to right. -/
def searchRes : List Char → Option (List Char)
  | [] => none
  | c :: rest =>
    match matchResAt (c :: rest) with
    | some r => some r
    | none => searchRes rest

/-- Text following `key` on the same logical line: leading whitespace is
skipped, the capture stops at the first newline, trailing whitespace is
stripped. Models `key + \s*(.+?)(?:\n|$)` followed by `.strip()`. -/
def matchLineAt (key : List Char) (s : List Char) : Option (List Char) :=
  match dropKey key s with
  | none => none
  | some rest =>
    let body := ((rest.dropWhile Char.isWhitespace).takeWhile (fun c => c ≠ '\n'))
    let body := (body.reverse.dropWhile Char.isWhitespace).reverse
    if body.isEmpty then none else some body

/-- Model of `re.search` for a `key ... end-of-line` pattern: try every position
left to right. -/
def searchLine (key : List Char) : List Char → Option (List Char)
  | [] => none
  | c :: rest =>
    match matchLineAt key (c :: rest) with
    | some r => some r
    | none => searchLine key rest

/-! ## `calendar_poller.py` — data model -/

/-- The `CheckoutEvent` dataclass of `calendar_poller.py`. -/
structure CheckoutEvent where
  reservation_id : String
  event_start : Int
  event_end : Int
  property_name : String
  guest_name : String
  summary : String
  description : String
  has_trigger_keyword : Bool
deriving Repr, DecidableEq

/-- One `VEVENT` component of the parsed iCal document: the fields
`parse_events` reads from it. `dtstart`/`dtend` are `none` when the
component lacks them. -/
structure VEvent where
  summary : String
  description : String
  dtstart : Option Int
  dtend : Option Int
deriving Repr, DecidableEq

/-- The mutable state of a `CalendarPoller`: the `_processed_events` set
and the `_processed_timestamps` dict. -/
structure PollerState where
  processed_events : List String
  processed_timestamps : List (String × Int)
deriving Repr, DecidableEq

/-- The freshly constructed poller state (both containers empty). -/
def emptyPoller : PollerState := ⟨[], []⟩

/-- Python `set.add`: insert the element when absent. -/
def setAdd (s : List String) (x : String) : List String :=
  if s.contains x then s else s ++ [x]

/-- Python `dict[k] = v`: overwrite in place when the key exists,
otherwise append. -/
def dictInsert (d : List (String × Int)) (k : String) (v : Int) :
    List (String × Int) :=
  if (d.map Prod.fst).contains k then
    d.map (fun p => if p.1 = k then (k, v) else p)
  else d ++ [(k, v)]

/-- Port of `CalendarPoller._parse_reservation_id`: extract the id following
`Reservation:` from the description, if any. -/
def parse_reservation_id (description : String) : Option String :=
  (searchRes description.toList).map List.asString

/-- Port of `CalendarPoller._parse_property_name`. -/
def parse_property_name (description : String) : String :=
  match searchLine ("Property:".toList) description.toList with
  | some cs => cs.asString
  | none => "Unknown Property"

/-- Port of `CalendarPoller._parse_guest_name`. -/
def parse_guest_name (description : String) : String :=
  match searchLine ("Guest name:".toList) description.toList with
  | some cs => cs.asString
  | none => "Unknown Guest"

/-- The time-window test of `parse_events` (lines 147–150):
`buffer_start <= event_start <= now` (started within the buffer) or
`event_start <= now <= event_end` (currently ongoing). -/
def in_time_window (now buffer_minutes event_start event_end : Int) : Bool :=
  let buffer_start := now - buffer_minutes * 60
  (decide (buffer_start ≤ event_start) && decide (event_start ≤ now)) ||
  (decide (event_start ≤ now) && decide (now ≤ event_end))

/-- The body of the `parse_events` loop for one `VEVENT` component:
`none` when the component is skipped (`continue`), `some event` when it
is appended to the result. Components without `dtstart` are skipped; a
missing `dtend` defaults to start + 1 hour; out-of-window components
are skipped before any content is examined; in-window components are
kept iff the summary marks a checkout or the description carries the
trigger keyword. -/
def parse_component (trigger_keyword : String) (now buffer_minutes : Int)
    (comp : VEvent) : Option CheckoutEvent :=
  match comp.dtstart with
  | none => none
  | some event_start =>
    let event_end := comp.dtend.getD (event_start + 3600)
    if in_time_window now buffer_minutes event_start event_end then
      let reservation_id :=
        match parse_reservation_id comp.description with
        | some rid => rid
        | none =>
          (comp.summary.toList.take 20).asString ++ "_" ++ toString event_start
      let has_trigger :=
        containsSub (trigger_keyword.toList.map Char.toUpper)
          (comp.description.toList.map Char.toUpper)
      let is_checkout :=
        containsSub ("check-out".toList) (comp.summary.toList.map Char.toLower) ||
        containsSub ("checkout".toList) (comp.summary.toList.map Char.toLower)
      if is_checkout || has_trigger then
        some {
          reservation_id := reservation_id
          event_start := event_start
          event_end := event_end
          property_name := parse_property_name comp.description
          guest_name := parse_guest_name comp.description
          summary := comp.summary
          description := comp.description
          has_trigger_keyword := has_trigger }
      else none
    else none

/-- Port of `CalendarPoller.parse_events`: walk the calendar's `VEVENT`
components in order, keeping those the loop body accepts. -/
def parse_events (trigger_keyword : String) (calendar : List VEvent)
    (now : Int) (buffer_minutes : Int) : List CheckoutEvent :=
  calendar.filterMap (parse_component trigger_keyword now buffer_minutes)

/-- Port of `CalendarPoller.filter_unprocessed`: the loop appends each event
whose `reservation_id` is not in the `_processed_events` set. The
ledger is read, never written. -/
def filter_unprocessed (st : PollerState) (events : List CheckoutEvent) :
    List CheckoutEvent :=
  events.foldl
    (fun unprocessed event =>
      if st.processed_events.contains event.reservation_id then unprocessed
      else unprocessed ++ [event])
    []

/-- Port of `CalendarPoller.mark_processed`: add the id to the set and record
the current time in the timestamps dict. -/
def mark_processed (st : PollerState) (event : CheckoutEvent) (now : Int) :
    PollerState :=
  { processed_events := setAdd st.processed_events event.reservation_id
    processed_timestamps :=
      dictInsert st.processed_timestamps event.reservation_id now }

/-- Port of `CalendarPoller.cleanup_old_processed`: compute
`cutoff = now - max_age_hours` and drop every ledger entry whose marked
timestamp is strictly older than the cutoff, from the set and the dict
alike. -/
def cleanup_old_processed (st : PollerState) (now : Int)
    (max_age_hours : Int) : PollerState :=
  let cutoff := now - max_age_hours * 3600
  let to_remove :=
    (st.processed_timestamps.filter (fun p => decide (p.2 < cutoff))).map Prod.fst
  { processed_events :=
      st.processed_events.filter (fun r => ¬ to_remove.contains r)
    processed_timestamps :=
      st.processed_timestamps.filter (fun p => ¬ decide (p.2 < cutoff)) }

/-- Outcome of the HTTP fetch + iCal parse in `fetch_calendar`. -/
inductive FetchResult where
  | ok (calendar : List VEvent)
  | httpError
  | parseError
deriving Repr, DecidableEq

/-- Port of `CalendarPoller.fetch_calendar`: a successfully fetched and parsed
calendar, or `none` — both `httpx.HTTPError` and any parse exception
are caught and turned into `None`. -/
def fetch_calendar : FetchResult → Option (List VEvent)
  | .ok calendar => some calendar
  | .httpError => none
  | .parseError => none

/-- Port of `CalendarPoller.get_actionable_checkouts`: evict aged ledger
entries, fetch the feed (an empty list is returned when the fetch
failed), parse, keep only events carrying the trigger keyword, and drop
already-processed ids. Returns the surfaced events and the
post-cleanup poller state. -/
def get_actionable_checkouts (st : PollerState) (trigger_keyword : String)
    (fetched : FetchResult) (now : Int) (buffer_minutes : Int) :
    List CheckoutEvent × PollerState :=
  let st1 := cleanup_old_processed st now 24
  match fetch_calendar fetched with
  | none => ([], st1)
  | some calendar =>
    let events := parse_events trigger_keyword calendar now buffer_minutes
    let triggered := events.filter (fun e => e.has_trigger_keyword)
    (filter_unprocessed st1 triggered, st1)

/-! ## `nest_controller.py` — device client -/

/-- Classes of exception an outbound HTTP call can raise:
`httpx.HTTPStatusError` (carrying the response status),
`httpx.ConnectError`, or anything else. -/
inductive ExcClass where
  | httpStatusError (status : Nat)
  | connectError
  | otherError
deriving Repr, DecidableEq

/-- The `retry_if_exception_type((httpx.HTTPStatusError,
httpx.ConnectError))` predicate of the decorators on `list_devices` and
`set_thermostat_mode`: an attempt is retried exactly when the raised
exception is one of those two types — the status carried by an
`HTTPStatusError` is never inspected. -/
def should_retry : ExcClass → Bool
  | .httpStatusError _ => true
  | .connectError => true
  | .otherError => false

/-- The tenacity retry loop: `k` is the index of the current attempt,
`fuel` the number of attempts still allowed (including this one).
Returns the final outcome and the number of attempts made. An attempt
that raises a retryable exception is retried while attempts remain; a
non-retryable exception, or exhaustion of `stop_after_attempt`,
surfaces the last exception. -/
def retryLoop (attempt : Nat → Except ExcClass α) (k : Nat) :
    Nat → Except ExcClass α × Nat
  | 0 => (.error .otherError, k)
  | fuel + 1 =>
    match attempt k with
    | .ok a => (.ok a, k + 1)
    | .error e =>
      if should_retry e ∧ fuel ≠ 0 then retryLoop attempt (k + 1) fuel
      else (.error e, k + 1)

/-- Run a call under the decorators' policy `stop_after_attempt(3)`. -/
def run_with_retry (attempt : Nat → Except ExcClass α) :
    Except ExcClass α × Nat :=
  retryLoop attempt 0 3

/-- One HTTP attempt of `set_thermostat_mode`, as a function of the
response status: `200` returns `True`; any other status first passes
through `response.raise_for_status()`, which raises `HTTPStatusError`
for every non-2xx status and is a no-op for 2xx, after which the
function returns `False`. -/
def set_mode_attempt (status : Nat) : Except ExcClass Bool :=
  if status = 200 then .ok true
  else if 200 ≤ status ∧ status < 300 then .ok false
  else .error (.httpStatusError status)

/-- Port of `NestController.set_thermostat_mode` under its retry decorator,
driven by an oracle giving the response status of each attempt. -/
def set_thermostat_mode (statuses : Nat → Nat) : Except ExcClass Bool × Nat :=
  run_with_retry (fun k => set_mode_attempt (statuses k))

/-- The observable outcome of one `turn_off_thermostat` call inside the
`turn_off_thermostats` loop: a returned boolean, or a raised
exception. -/
inductive DeviceOutcome where
  | ok (success : Bool)
  | exn (e : ExcClass)
deriving Repr, DecidableEq

/-- How the `turn_off_thermostats` loop records one outcome: the
returned boolean, or `False` when the call raised (the `except` arm). -/
def outcomeBool : DeviceOutcome → Bool
  | .ok b => b
  | .exn _ => false

/-- Python `dict[k] = v` for boolean values. -/
def dictInsertB (d : List (String × Bool)) (k : String) (v : Bool) :
    List (String × Bool) :=
  if (d.map Prod.fst).contains k then
    d.map (fun p => if p.1 = k then (k, v) else p)
  else d ++ [(k, v)]

/-- The `for device_id in device_ids` loop of `turn_off_thermostats`:
`k` counts the calls issued so far, `eff` gives the outcome of the
`k`-th call, `results` is the dict built up so far. -/
def turnOffLoop (eff : Nat → DeviceOutcome) :
    List String → Nat → List (String × Bool) → List (String × Bool)
  | [], _, results => results
  | id :: rest, k, results =>
    turnOffLoop eff rest (k + 1) (dictInsertB results id (outcomeBool (eff k)))

/-- Port of `NestController.turn_off_thermostats`: sequential fan-out over the
device ids, recording each device's outcome, with per-device exceptions
caught and recorded as `False`. -/
def turn_off_thermostats (eff : Nat → DeviceOutcome) (device_ids : List String) :
    List (String × Bool) :=
  turnOffLoop eff device_ids 0 []

/-- The `Thermostat` dataclass of `nest_controller.py` (temperatures and
humidity as rationals). -/
structure Thermostat where
  device_id : String
  name : String
  display_name : String
  current_mode : String
  ambient_temperature_celsius : Option ℚ := none
  humidity_percent : Option ℚ := none
deriving Repr, DecidableEq

/-! ## `auth.py` — token manager -/

/-- The fields of the `google.oauth2.credentials.Credentials` object
that `get_valid_token` reads: the access token, its expiry instant, and
the library-computed `expired` flag. -/
structure Credentials where
  token : Option String
  expiry : Option Int
  expired : Bool
deriving Repr, DecidableEq

/-- Port of `TokenManager._create_credentials`: a credentials object built from
the refresh token alone holds no access token and no expiry, and is not
flagged expired. -/
def create_credentials : Credentials :=
  { token := none, expiry := none, expired := false }

/-- The `needs_refresh` condition of `get_valid_token` (lines 57–64):
no token held, or the token expired, or an expiry is set and lies
before `now` plus the 10-minute safety margin. -/
def needs_refresh (c : Credentials) (now : Int) : Bool :=
  c.token.isNone || c.expired ||
    (match c.expiry with
     | some e => decide (e < now + 10 * 60)
     | none => false)

/-- The mutable state of a `TokenManager`: `_credentials` and
`_last_refresh`. -/
structure TokenState where
  credentials : Option Credentials
  last_refresh : Option Int
deriving Repr, DecidableEq

/-- Outcome of one `credentials.refresh(Request())` exchange. -/
inductive RefreshResult where
  | ok (token : String) (expiry : Int)
  | err
deriving Repr, DecidableEq

/-- Port of `TokenManager.get_valid_token`, driven by the outcome the token
endpoint would produce. Returns the result (the token, or the
propagated refresh failure), the new manager state, and the number of
refresh exchanges performed. -/
def get_valid_token (st : TokenState) (now : Int) (refresh : RefreshResult) :
    Except Unit String × TokenState × Nat :=
  let creds := st.credentials.getD create_credentials
  if needs_refresh creds now then
    match refresh with
    | .ok tok exp =>
      (.ok tok,
       { credentials := some { token := some tok, expiry := some exp, expired := false }
         last_refresh := some now },
       1)
    | .err => (.error (), { credentials := some creds, last_refresh := st.last_refresh }, 1)
  else
    (.ok (creds.token.getD ""), { credentials := some creds, last_refresh := st.last_refresh }, 0)

/-! ## `main.py` — per-event orchestration -/

/-- The dict returned by `process_checkout_event`: the early
`{"success": False, "error": "No thermostats found"}` return, or the
action record carrying the per-device results of the fan-out. -/
inductive ProcessOutcome where
  | noThermostats
  | acted (results : List (String × Bool))
deriving Repr, DecidableEq

/-- Port of `process_checkout_event` (the device-resolution, fan-out and
ledger-marking path, lines 55–92): resolve the target ids from the
configuration, falling back to every discovered thermostat; with no
targets, record the "No thermostats found" failure and leave the ledger
untouched; otherwise run the fan-out and mark the event processed
whatever the per-device results. The inventory listing is taken as an
argument (this models the path where `list_devices` succeeded); the
notification step after marking is caught-and-logged and does not
affect the outcome. -/
def process_checkout_event (configured_ids : List String)
    (devices : List Thermostat) (eff : Nat → DeviceOutcome)
    (st : PollerState) (event : CheckoutEvent) (now : Int) :
    ProcessOutcome × PollerState :=
  let device_ids :=
    if configured_ids.isEmpty then devices.map Thermostat.device_id
    else configured_ids
  if device_ids.isEmpty then (.noThermostats, st)
  else
    let results := turn_off_thermostats eff device_ids
    (.acted results, mark_processed st event now)

/-! ## Helper lemmas -/

/-- The `filter_unprocessed` loop is `List.filter` with the membership
test negated. -/
theorem filter_unprocessed_foldl (st : PollerState)
    (events acc : List CheckoutEvent) :
    events.foldl
      (fun unprocessed event =>
        if st.processed_events.contains event.reservation_id then unprocessed
        else unprocessed ++ [event]) acc
    = acc ++ events.filter
        (fun e => !(st.processed_events.contains e.reservation_id)) := by
  induction events generalizing acc with
  | nil => simp
  | cons e rest ih =>
    simp only [List.foldl_cons, List.filter_cons]
    cases h : st.processed_events.contains e.reservation_id with
    | true =>
      rw [if_pos rfl]
      simp only [Bool.not_true]
      rw [if_neg (by simp)]
      exact ih acc
    | false =>
      rw [if_neg (by simp)]
      simp only [Bool.not_false]
      rw [if_pos trivial, ih (acc ++ [e])]
      simp

theorem filter_unprocessed_eq (st : PollerState) (events : List CheckoutEvent) :
    filter_unprocessed st events
    = events.filter (fun e => !(st.processed_events.contains e.reservation_id)) := by
  unfold filter_unprocessed
  rw [filter_unprocessed_foldl st events []]
  simp

/-- The function `setAdd` contains the inserted element. -/
theorem mem_setAdd_self (s : List String) (x : String) : x ∈ setAdd s x := by
  unfold setAdd
  cases h : s.contains x with
  | true =>
    rw [if_pos rfl]
    simpa using h
  | false =>
    rw [if_neg (by simp)]
    simp

/-- The function `setAdd` keeps every element already present. -/
theorem mem_setAdd_of_mem (s : List String) (x y : String) (h : y ∈ s) :
    y ∈ setAdd s x := by
  unfold setAdd
  cases hc : s.contains x with
  | true =>
    rw [if_pos rfl]
    exact h
  | false =>
    rw [if_neg (by simp)]
    exact List.mem_append_left _ h

end NestCheckout

namespace NestCheckout

/-! ## Claims about the idempotency ledger -/

/-- C1. Ledger exclusion invariant: `filter_unprocessed` never returns
an event whose reservation id is in the `_processed_events` set; after
`mark_processed e` the id of `e` is in that set, so every event sharing
it is excluded from every call; other `mark_processed` calls never
remove a marked id, and `cleanup_old_processed` removes a marked id
only when its recorded timestamp has aged past the cutoff (eviction). -/
theorem ledger_exclusion (st : PollerState) (e : CheckoutEvent) (now : Int)
    (events : List CheckoutEvent) (x : CheckoutEvent) :
    (x ∈ filter_unprocessed st events → x.reservation_id ∉ st.processed_events) ∧
    (x ∈ filter_unprocessed (mark_processed st e now) events →
      x.reservation_id ≠ e.reservation_id) ∧
    (x.reservation_id ∈ st.processed_events →
      x.reservation_id ∈ (mark_processed st e now).processed_events) ∧
    (∀ maxAge : Int, x.reservation_id ∈ st.processed_events →
      x.reservation_id ∉ (cleanup_old_processed st now maxAge).processed_events →
      ∃ ts, (x.reservation_id, ts) ∈ st.processed_timestamps ∧
        ts < now - maxAge * 3600) := by
  have hmem : ∀ (s : PollerState) (y : CheckoutEvent),
      y ∈ filter_unprocessed s events → y.reservation_id ∉ s.processed_events := by
    intro s y hy
    rw [filter_unprocessed_eq] at hy
    have := (List.mem_filter.mp hy).2
    simpa using this
  refine ⟨hmem st x, ?_, ?_, ?_⟩
  · intro hx heq
    have hnot := hmem (mark_processed st e now) x hx
    apply hnot
    show x.reservation_id ∈ setAdd st.processed_events e.reservation_id
    rw [heq]
    exact mem_setAdd_self _ _
  · intro hx
    exact mem_setAdd_of_mem _ _ _ hx
  · intro maxAge hin hout
    simp only [cleanup_old_processed, List.mem_filter, not_and] at hout
    have h2 := hout hin
    simp only [decide_eq_true_eq, not_not] at h2
    have h3 : x.reservation_id ∈
        ((st.processed_timestamps.filter
          (fun p => decide (p.2 < now - maxAge * 3600))).map Prod.fst) := by
      simpa using h2
    rcases List.mem_map.mp h3 with ⟨p, hpmem, hp1⟩
    obtain ⟨hpt, hplt⟩ := List.mem_filter.mp hpmem
    refine ⟨p.2, ?_, by simpa using hplt⟩
    have hpe : (x.reservation_id, p.2) = p := by rw [← hp1]
    rw [hpe]
    exact hpt

/-- C1 witness: with `"B"` unmarked and `"A"` marked, the `"B"` event
passes the filter and its id differs from the marked one. -/
theorem ledger_exclusion_witness :
    ((⟨"B", 0, 0, "", "", "", "", true⟩ : CheckoutEvent) ∈
      filter_unprocessed
        (mark_processed emptyPoller ⟨"A", 0, 0, "", "", "", "", true⟩ 5)
        [⟨"B", 0, 0, "", "", "", "", true⟩]) ∧
    ("B" : String) ≠ "A" :=
  ⟨by decide,
   (ledger_exclusion emptyPoller ⟨"A", 0, 0, "", "", "", "", true⟩ 5
      [⟨"B", 0, 0, "", "", "", "", true⟩]
      ⟨"B", 0, 0, "", "", "", "", true⟩).2.1 (by decide)⟩

/-- C5 counterexample: an id marked processed at `T = 0` is still in the
processed set after a `cleanup_old_processed` call evaluated at exactly
`T + max_age_hours` (`now = 86400`, `max_age_hours = 24`), where the
claim's inclusive cutoff demands its removal. -/
theorem eviction_cutoff_counterexample :
    (0 : Int) + 24 * 3600 ≤ 86400 ∧
    (cleanup_old_processed
        (mark_processed emptyPoller ⟨"R", 0, 3600, "p", "g", "s", "d", true⟩ 0)
        86400 24).processed_events = ["R"] := by
  constructor
  · decide
  · decide

/-- C5 amended. Eviction is pure aging with a strict cutoff: an id
marked processed at time `T` survives a `cleanup_old_processed` call
evaluated at `now` exactly when `now ≤ T + max_age_hours` (in seconds);
it is evicted (from the set and the timestamps dict alike) exactly when
`now` is strictly past `T + max_age_hours`. -/
theorem eviction_strict_aging (e : CheckoutEvent) (T now maxAge : Int) :
    (e.reservation_id ∈
        (cleanup_old_processed (mark_processed emptyPoller e T) now
          maxAge).processed_events
      ↔ now ≤ T + maxAge * 3600) ∧
    ((cleanup_old_processed (mark_processed emptyPoller e T) now
        maxAge).processed_timestamps
      = if T < now - maxAge * 3600 then [] else [(e.reservation_id, T)]) := by
  have hstate : mark_processed emptyPoller e T
      = ⟨[e.reservation_id], [(e.reservation_id, T)]⟩ := by
    simp [mark_processed, emptyPoller, setAdd, dictInsert]
  rw [hstate]
  by_cases h : T < now - maxAge * 3600 <;>
    refine ⟨?_, ?_⟩ <;>
    simp only [cleanup_old_processed] <;>
    simp [h] <;>
    omega

/-- An `if` on a `Bool` returning `some` against `none` is `isSome`
exactly when the condition holds. -/
theorem isSome_ite_some (b : Bool) (x : α) :
    (if b = true then some x else none).isSome = b := by
  cases b <;> simp

/-- C2 counterexample: the entry `"Team sync"` starts inside the
actionable window (`now = 600`, `buffer_minutes = 30`, start `0`), yet
`parse_events` does not select it — selection is not equivalent to the
time-window condition alone. -/
theorem time_window_iff_counterexample :
    in_time_window 600 30 0 3600 = true ∧
    (⟨"Team sync", "weekly planning", some 0, some 3600⟩ : VEvent).dtstart
      = some 0 ∧
    parse_events "TURN_OFF_THERMOSTATS"
      [⟨"Team sync", "weekly planning", some 0, some 3600⟩] 600 30 = [] :=
  ⟨by decide, rfl, by decide⟩

/-- C2 amended. Time-window policy: every entry with a start time that
fails the window test (start outside `[now - buffer_minutes, now]` and
`now` outside `[start, end]`) is excluded by `parse_events` regardless
of its summary or description; an entry inside the window is selected
exactly when its summary marks a checkout or its description carries
the trigger keyword; and `parse_events` applies this per entry over the
calendar. -/
theorem time_window_policy (kw : String) (now buf : Int) (v : VEvent)
    (s : Int) (h : v.dtstart = some s) :
    (in_time_window now buf s (v.dtend.getD (s + 3600)) = false →
      parse_component kw now buf v = none) ∧
    (in_time_window now buf s (v.dtend.getD (s + 3600)) = true →
      (parse_component kw now buf v).isSome
        = ((containsSub ("check-out".toList) (v.summary.toList.map Char.toLower) ||
            containsSub ("checkout".toList) (v.summary.toList.map Char.toLower)) ||
           containsSub (kw.toList.map Char.toUpper)
             (v.description.toList.map Char.toUpper))) ∧
    (∀ cal : List VEvent,
      parse_events kw cal now buf = cal.filterMap (parse_component kw now buf)) := by
  refine ⟨?_, ?_, fun _ => rfl⟩
  · intro hw
    simp [parse_component, h, hw]
  · intro hw
    simp [parse_component, h, hw, isSome_ite_some]
    split
    · next hcond => rcases hcond with (h1 | h1) | h1 <;> simp [h1]
    · next hcond =>
      push_neg at hcond
      obtain ⟨⟨h1, h2⟩, h3⟩ := hcond
      simp only [Bool.not_eq_true] at h1 h2 h3
      simp [h1, h2, h3]

/-- C2 witness: for the in-window `"Team sync"` entry the selection
test evaluates to its content condition (here `false`). -/
theorem time_window_policy_witness :
    (⟨"Team sync", "weekly planning", some 0, some 3600⟩ : VEvent).dtstart
      = some 0 ∧
    in_time_window 600 30 0
      ((⟨"Team sync", "weekly planning", some 0, some 3600⟩ : VEvent).dtend.getD
        (0 + 3600)) = true ∧
    (parse_component "TURN_OFF_THERMOSTATS" 600 30
        ⟨"Team sync", "weekly planning", some 0, some 3600⟩).isSome
      = ((containsSub ("check-out".toList) ("Team sync".toList.map Char.toLower) ||
          containsSub ("checkout".toList) ("Team sync".toList.map Char.toLower)) ||
         containsSub ("TURN_OFF_THERMOSTATS".toList.map Char.toUpper)
           ("weekly planning".toList.map Char.toUpper)) :=
  ⟨rfl, by decide,
   (time_window_policy "TURN_OFF_THERMOSTATS" 600 30
      ⟨"Team sync", "weekly planning", some 0, some 3600⟩ 0 rfl).2.1 (by decide)⟩

/-- The key just written by `dictInsertB` is among the dict's keys. -/
theorem mem_keys_dictInsertB_self (d : List (String × Bool)) (k : String)
    (v : Bool) : k ∈ (dictInsertB d k v).map Prod.fst := by
  unfold dictInsertB
  cases h : (d.map Prod.fst).contains k with
  | true =>
    rw [if_pos rfl]
    have hk : k ∈ d.map Prod.fst := by simpa using h
    rcases List.mem_map.mp hk with ⟨p, hp, hpk⟩
    exact List.mem_map.mpr
      ⟨if p.1 = k then (k, v) else p, List.mem_map_of_mem _ hp, by rw [if_pos hpk]⟩
  | false =>
    rw [if_neg (by simp)]
    simp

/-- The function `dictInsertB` keeps every key already present. -/
theorem mem_keys_dictInsertB_of_mem (d : List (String × Bool)) (k x : String)
    (v : Bool) (h : x ∈ d.map Prod.fst) :
    x ∈ (dictInsertB d k v).map Prod.fst := by
  unfold dictInsertB
  cases hc : (d.map Prod.fst).contains k with
  | true =>
    rw [if_pos rfl]
    rcases List.mem_map.mp h with ⟨p, hp, hpx⟩
    apply List.mem_map.mpr
    by_cases hpk : p.1 = k
    · refine ⟨(k, v), List.mem_map.mpr ⟨p, hp, by rw [if_pos hpk]⟩, ?_⟩
      show k = x
      rw [← hpk]
      exact hpx
    · exact ⟨p, List.mem_map.mpr ⟨p, hp, by rw [if_neg hpk]⟩, hpx⟩
  | false =>
    rw [if_neg (by simp), List.map_append]
    exact List.mem_append_left _ h

/-- Every input id reaches the result dict of the fan-out loop. -/
theorem turnOffLoop_covers (eff : Nat → DeviceOutcome) (ids : List String)
    (k : Nat) (acc : List (String × Bool)) (x : String)
    (h : x ∈ ids ∨ x ∈ acc.map Prod.fst) :
    x ∈ (turnOffLoop eff ids k acc).map Prod.fst := by
  induction ids generalizing k acc with
  | nil =>
    rcases h with h | h
    · simp at h
    · simpa [turnOffLoop] using h
  | cons id rest ih =>
    simp only [turnOffLoop]
    apply ih
    rcases h with h | h
    · rcases List.mem_cons.mp h with rfl | h
      · exact Or.inr (mem_keys_dictInsertB_self acc x (outcomeBool (eff k)))
      · exact Or.inl h
    · exact Or.inr (mem_keys_dictInsertB_of_mem acc id x (outcomeBool (eff k)) h)

/-- On duplicate-free ids disjoint from the accumulated keys, the
fan-out loop appends one entry per id, pairing the `i`-th id with the
outcome of the `i`-th call. -/
theorem turnOffLoop_nodup (eff : Nat → DeviceOutcome) (ids : List String)
    (k : Nat) (acc : List (String × Bool)) (hnd : ids.Nodup)
    (hdisj : ∀ x ∈ ids, x ∉ acc.map Prod.fst) :
    turnOffLoop eff ids k acc
      = acc ++ (List.enumFrom k ids).map
          (fun p => (p.2, outcomeBool (eff p.1))) := by
  induction ids generalizing k acc with
  | nil => simp [turnOffLoop]
  | cons id rest ih =>
    simp only [turnOffLoop]
    have hid : id ∉ acc.map Prod.fst := hdisj id (List.mem_cons_self id rest)
    have hins : dictInsertB acc id (outcomeBool (eff k))
        = acc ++ [(id, outcomeBool (eff k))] := by
      unfold dictInsertB
      rw [if_neg (by simpa using hid)]
    rw [hins]
    obtain ⟨hhead, htail⟩ := List.nodup_cons.mp hnd
    rw [ih (k + 1) (acc ++ [(id, outcomeBool (eff k))]) htail ?_]
    · simp [List.enumFrom, List.append_assoc]
    · intro x hx
      rw [List.map_append]
      simp only [List.mem_append]
      push_neg
      refine ⟨hdisj x (List.mem_cons_of_mem id hx), ?_⟩
      intro hxid
      simp only [List.map_cons, List.map_nil, List.mem_singleton] at hxid
      exact hhead (hxid ▸ hx)

/-- C3 counterexample: two device ids that coincide are recorded as a
single dict entry — the result of `turn_off_thermostats` over the
2-element list `["a", "a"]` has size 1, not 2. -/
theorem fanout_size_counterexample :
    (["a", "a"] : List String).length = 2 ∧
    (turn_off_thermostats (fun _ => DeviceOutcome.ok true) ["a", "a"]).length = 1 ∧
    ¬ (turn_off_thermostats (fun _ => DeviceOutcome.ok true) ["a", "a"]).length = 2 :=
  ⟨rfl, by decide, by decide⟩

/-- C3 amended. Partial-failure accounting in the fan-out: every id in
the input reaches the result mapping whatever the outcomes (a failure
or exception on one device never stops the loop or escapes it, since
each call's exception is caught and recorded as `false`); and for an
input of N pairwise-distinct ids the mapping has size N, with the
`i`-th id bound to the outcome of its own (the `i`-th) call. A repeated
id instead collapses onto one entry, so only the distinct-id count is
guaranteed. -/
theorem fanout_failure_accounting (eff : Nat → DeviceOutcome) (ids : List String) :
    (∀ x ∈ ids, x ∈ (turn_off_thermostats eff ids).map Prod.fst) ∧
    (ids.Nodup →
      turn_off_thermostats eff ids
        = (List.enumFrom 0 ids).map (fun p => (p.2, outcomeBool (eff p.1)))) ∧
    (ids.Nodup → (turn_off_thermostats eff ids).length = ids.length) := by
  have hmain : ids.Nodup →
      turn_off_thermostats eff ids
        = (List.enumFrom 0 ids).map (fun p => (p.2, outcomeBool (eff p.1))) := by
    intro hnd
    simpa using turnOffLoop_nodup eff ids 0 [] hnd (by simp)
  refine ⟨fun x hx => turnOffLoop_covers eff ids 0 [] x (Or.inl hx), hmain, ?_⟩
  intro hnd
  rw [hmain hnd]
  simp [List.enumFrom_length]

/-- C3 witness: over the distinct ids `["a", "b"]` with the first call
failing and the second raising, both ids are covered and the mapping
has size 2 with each id bound to its own outcome. -/
theorem fanout_failure_accounting_witness :
    ("a" : String) ∈ (["a", "b"] : List String) ∧
    (["a", "b"] : List String).Nodup ∧
    "a" ∈ (turn_off_thermostats
        (fun k => if k = 0 then DeviceOutcome.ok false
                  else DeviceOutcome.exn ExcClass.connectError)
        ["a", "b"]).map Prod.fst ∧
    turn_off_thermostats
        (fun k => if k = 0 then DeviceOutcome.ok false
                  else DeviceOutcome.exn ExcClass.connectError)
        ["a", "b"]
      = [("a", false), ("b", false)] :=
  ⟨by decide, by decide,
   (fanout_failure_accounting
      (fun k => if k = 0 then DeviceOutcome.ok false
                else DeviceOutcome.exn ExcClass.connectError) ["a", "b"]).1
     "a" (by decide),
   by
    rw [(fanout_failure_accounting
      (fun k => if k = 0 then DeviceOutcome.ok false
                else DeviceOutcome.exn ExcClass.connectError) ["a", "b"]).2.1
      (by decide)]
    decide⟩

/-- One unfolding step of the retry loop. -/
theorem retryLoop_succ {α : Type} (attempt : Nat → Except ExcClass α)
    (k fuel : Nat) :
    retryLoop attempt k (fuel + 1)
      = match attempt k with
        | .ok a => (.ok a, k + 1)
        | .error e =>
          if should_retry e ∧ fuel ≠ 0 then retryLoop attempt (k + 1) fuel
          else (.error e, k + 1) := rfl

/-- A call whose every attempt raises the same exception is retried to
the full attempt budget when the exception class is retryable, and
surfaced after a single attempt otherwise. -/
theorem retryLoop_const {α : Type} (attempt : Nat → Except ExcClass α)
    (e : ExcClass) (h : ∀ k, attempt k = .error e) (fuel k : Nat) :
    retryLoop attempt k (fuel + 1)
      = (.error e, k + if should_retry e then fuel + 1 else 1) := by
  induction fuel generalizing k with
  | zero =>
    rw [retryLoop_succ, h k]
    change (if should_retry e = true ∧ 0 ≠ 0 then retryLoop attempt (k + 1) 0
            else (Except.error e, k + 1)) = _
    rw [if_neg (by simp)]
    cases hr : should_retry e <;> simp [hr]
  | succ n ih =>
    rw [retryLoop_succ, h k]
    change (if should_retry e = true ∧ n + 1 ≠ 0 then
              retryLoop attempt (k + 1) (n + 1)
            else (Except.error e, k + 1)) = _
    cases hr : should_retry e
    · rw [if_neg (by simp)]
      simp [hr]
    · rw [if_pos ⟨rfl, Nat.succ_ne_zero n⟩, ih (k + 1)]
      simp [hr]
      omega

/-- C4 counterexample: a mode-set call whose responses are all
HTTP 400 (a malformed-request rejection) is attempted three times —
the decorator retries it, since `HTTPStatusError` is retryable
whatever its status; likewise for HTTP 401. -/
theorem retry_on_400_counterexample :
    (set_thermostat_mode (fun _ => 400)).2 = 3 ∧
    ¬ (set_thermostat_mode (fun _ => 400)).2 = 1 ∧
    (set_thermostat_mode (fun _ => 401)).2 = 3 :=
  ⟨by decide, by decide, by decide⟩

/-- C4 amended. The retry predicate is purely exception-type-based: an
attempt is retried (up to the 3-attempt limit) iff it raised
`httpx.HTTPStatusError` — any HTTP error status, 400 and 401
included — or `httpx.ConnectError`, and failures of any other class
are surfaced after a single attempt; in particular a mode-set call
rejected with a non-2xx status on every attempt is attempted exactly
3 times. -/
theorem retry_class_policy (attempt : Nat → Except ExcClass Bool)
    (e : ExcClass) (h : ∀ k, attempt k = .error e) :
    (should_retry e = true ↔
      e = ExcClass.connectError ∨ ∃ s, e = ExcClass.httpStatusError s) ∧
    run_with_retry attempt = (.error e, if should_retry e then 3 else 1) ∧
    (∀ s : Nat, ¬ (200 ≤ s ∧ s < 300) →
      set_thermostat_mode (fun _ => s) = (.error (.httpStatusError s), 3)) := by
  refine ⟨?_, ?_, ?_⟩
  · cases e <;> simp [should_retry]
  · have := retryLoop_const attempt e h 2 0
    simpa [run_with_retry] using this
  · intro s hs
    have hatt : ∀ k : Nat, set_mode_attempt s = .error (.httpStatusError s) := by
      intro _
      unfold set_mode_attempt
      rw [if_neg (by omega), if_neg hs]
    have := retryLoop_const (fun _ => set_mode_attempt s)
      (.httpStatusError s) hatt 2 0
    simpa [set_thermostat_mode, run_with_retry, should_retry] using this

/-- C4 witness: a non-retryable exception class is surfaced after one
attempt. -/
theorem retry_class_policy_witness :
    (∀ k : Nat,
      (fun _ : Nat => (Except.error ExcClass.otherError : Except ExcClass Bool)) k
        = Except.error ExcClass.otherError) ∧
    run_with_retry
        (fun _ : Nat => (Except.error ExcClass.otherError : Except ExcClass Bool))
      = (Except.error ExcClass.otherError,
         if should_retry ExcClass.otherError then 3 else 1) :=
  ⟨fun _ => rfl,
   (retry_class_policy (fun _ => Except.error ExcClass.otherError)
      ExcClass.otherError (fun _ => rfl)).2.1⟩

/-- C9. Success is reported only for exactly HTTP 200: a 2xx response
other than 200 makes `set_thermostat_mode` return `False` without
raising (one attempt, no retry), and the attempt yields `True` iff the
status is exactly 200. -/
theorem http_200_only (s : Nat) :
    (200 ≤ s → s < 300 → ¬ s = 200 →
      set_mode_attempt s = .ok false ∧
      set_thermostat_mode (fun _ => s) = (.ok false, 1)) ∧
    (set_mode_attempt s = .ok true ↔ s = 200) := by
  constructor
  · intro h1 h2 h3
    have ha : set_mode_attempt s = .ok false := by
      unfold set_mode_attempt
      rw [if_neg h3, if_pos ⟨h1, h2⟩]
    refine ⟨ha, ?_⟩
    unfold set_thermostat_mode run_with_retry
    simp only [ha]
    rfl
  · constructor
    · intro hes
      by_contra h200
      unfold set_mode_attempt at hes
      rw [if_neg h200] at hes
      by_cases h2xx : 200 ≤ s ∧ s < 300
      · rw [if_pos h2xx] at hes
        simp at hes
      · rw [if_neg h2xx] at hes
        simp at hes
    · intro h200
      unfold set_mode_attempt
      rw [if_pos h200]

/-- C9 witness: HTTP 204 yields `(False, one attempt)`. -/
theorem http_200_only_witness :
    (200 : Nat) ≤ 204 ∧ (204 : Nat) < 300 ∧ ¬ (204 : Nat) = 200 ∧
    set_mode_attempt 204 = .ok false ∧
    set_thermostat_mode (fun _ => 204) = (.ok false, 1) :=
  ⟨by decide, by decide, by decide,
   ((http_200_only 204).1 (by decide) (by decide) (by decide)).1,
   ((http_200_only 204).1 (by decide) (by decide) (by decide)).2⟩

/-- The `needs_refresh` test holds exactly when no token is held, the
token is expired, or a set expiry lies within ten minutes of `now`. -/
theorem needs_refresh_iff (c : Credentials) (now : Int) :
    needs_refresh c now = true ↔
      (c.token = none ∨ c.expired = true ∨
        ∃ e, c.expiry = some e ∧ e < now + 10 * 60) := by
  unfold needs_refresh
  cases htok : c.token <;> cases hexp : c.expiry <;>
    cases hexd : c.expired <;> simp [htok, hexp, hexd]

/-- The function `get_valid_token` performs one refresh exchange when the
`needs_refresh` test holds and none otherwise. -/
theorem get_valid_token_count (st : TokenState) (now : Int)
    (r : RefreshResult) :
    (get_valid_token st now r).2.2
      = if needs_refresh (st.credentials.getD create_credentials) now then 1
        else 0 := by
  simp only [get_valid_token]
  by_cases h : needs_refresh (st.credentials.getD create_credentials) now = true
  · cases r <;> simp [h]
  · simp [h]

/-- C6. Token refresh condition: a call refreshes (once) iff no token
is held, the held token is expired, or its expiry lies within the
10-minute margin of `now`; a call never performs more than one
refresh; a held expiry of `now + 5` minutes forces the single refresh;
and when a needed refresh fails the failure propagates out of the
call. -/
theorem token_refresh_policy (st : TokenState) (now : Int)
    (r : RefreshResult) :
    ((get_valid_token st now r).2.2 = 1 ↔
      ((st.credentials.getD create_credentials).token = none ∨
       (st.credentials.getD create_credentials).expired = true ∨
       ∃ e, (st.credentials.getD create_credentials).expiry = some e ∧
         e < now + 10 * 60)) ∧
    ((get_valid_token st now r).2.2 = 0 ∨ (get_valid_token st now r).2.2 = 1) ∧
    (∀ c : Credentials, st.credentials = some c →
      c.expiry = some (now + 5 * 60) → (get_valid_token st now r).2.2 = 1) ∧
    (needs_refresh (st.credentials.getD create_credentials) now = true →
      r = RefreshResult.err → (get_valid_token st now r).1 = .error ()) := by
  have hiff := needs_refresh_iff (st.credentials.getD create_credentials) now
  refine ⟨?_, ?_, ?_, ?_⟩
  · rw [get_valid_token_count]
    by_cases h : needs_refresh (st.credentials.getD create_credentials) now = true
    · rw [if_pos h]
      exact ⟨fun _ => hiff.mp h, fun _ => rfl⟩
    · rw [if_neg h]
      exact ⟨fun h01 => absurd h01 (by decide),
             fun hd => absurd (hiff.mpr hd) h⟩
  · rw [get_valid_token_count]
    by_cases h : needs_refresh (st.credentials.getD create_credentials) now = true
    · rw [if_pos h]
      exact Or.inr rfl
    · rw [if_neg h]
      exact Or.inl rfl
  · intro c hc hexp
    rw [get_valid_token_count, hc]
    have hc5 : needs_refresh c now = true :=
      (needs_refresh_iff c now).mpr
        (Or.inr (Or.inr ⟨now + 5 * 60, hexp, by omega⟩))
    simp [Option.getD_some, hc5]
  · intro hn hr
    simp only [get_valid_token]
    rw [if_pos hn, hr]

/-- C10. `filter_unprocessed` deduplicates nothing within a batch: for
an id `r` not currently marked, the output contains exactly as many
events bearing `r` as the input does, and the output is a sublist of
the input (so duplicates survive in input order); the call returns only
a list and leaves every `PollerState` it is given untouched. -/
theorem filter_no_batch_dedup (st : PollerState)
    (events : List CheckoutEvent) (r : String)
    (h : st.processed_events.contains r = false) :
    (filter_unprocessed st events).countP (fun x => x.reservation_id == r)
      = events.countP (fun x => x.reservation_id == r) ∧
    (filter_unprocessed st events).Sublist events := by
  rw [filter_unprocessed_eq]
  constructor
  · rw [List.countP_filter]
    apply List.countP_congr
    intro x _
    constructor
    · intro hx
      simp only [Bool.and_eq_true] at hx
      exact hx.1
    · intro hx
      simp only [Bool.and_eq_true]
      refine ⟨hx, ?_⟩
      have hr : x.reservation_id = r := by simpa using hx
      rw [hr, h]
      simp
  · exact List.filter_sublist events

/-- C10 witness: two events sharing the unmarked id `"R"` both survive
the filter. -/
theorem filter_no_batch_dedup_witness :
    emptyPoller.processed_events.contains "R" = false ∧
    (filter_unprocessed emptyPoller
        [⟨"R", 0, 0, "a", "a", "a", "a", true⟩,
         ⟨"R", 1, 1, "b", "b", "b", "b", true⟩]).countP
        (fun x => x.reservation_id == "R")
      = ([⟨"R", 0, 0, "a", "a", "a", "a", true⟩,
          ⟨"R", 1, 1, "b", "b", "b", "b", true⟩] :
            List CheckoutEvent).countP (fun x => x.reservation_id == "R") :=
  ⟨by decide,
   (filter_no_batch_dedup emptyPoller
      [⟨"R", 0, 0, "a", "a", "a", "a", true⟩,
       ⟨"R", 1, 1, "b", "b", "b", "b", true⟩] "R" (by decide)).1⟩

/-- C6 witness: a held token expiring at `now + 5` minutes
(`now = 600`, expiry `900`) triggers exactly one refresh. -/
theorem token_refresh_policy_witness :
    (⟨some ⟨some "t", some 900, false⟩, none⟩ : TokenState).credentials
      = some ⟨some "t", some 900, false⟩ ∧
    (⟨some "t", some 900, false⟩ : Credentials).expiry
      = some ((600 : Int) + 5 * 60) ∧
    (get_valid_token ⟨some ⟨some "t", some 900, false⟩, none⟩ 600
        (.ok "n" 4200)).2.2 = 1 :=
  ⟨rfl, by decide,
   (token_refresh_policy ⟨some ⟨some "t", some 900, false⟩, none⟩ 600
      (.ok "n" 4200)).2.2.1 ⟨some "t", some 900, false⟩ rfl (by decide)⟩

/-- C7. Feed failure is a null result, not an exception: an HTTP
failure or a parse failure makes `fetch_calendar` return `None`, and on
a `None` calendar `get_actionable_checkouts` surfaces the empty event
list for the tick. -/
theorem feed_failure_skips_tick (st : PollerState) (kw : String)
    (fr : FetchResult) (now buf : Int) :
    (fr = FetchResult.httpError ∨ fr = FetchResult.parseError →
      fetch_calendar fr = none) ∧
    (fetch_calendar fr = none →
      (get_actionable_checkouts st kw fr now buf).1 = []) := by
  constructor
  · rintro (rfl | rfl) <;> rfl
  · intro h
    simp [get_actionable_checkouts, h]

/-- C7 witness: an HTTP failure yields `None` and an empty tick. -/
theorem feed_failure_skips_tick_witness :
    (FetchResult.httpError = FetchResult.httpError ∨
      FetchResult.httpError = FetchResult.parseError) ∧
    fetch_calendar FetchResult.httpError = none ∧
    (get_actionable_checkouts emptyPoller "K" FetchResult.httpError 0 30).1
      = [] :=
  ⟨Or.inl rfl,
   (feed_failure_skips_tick emptyPoller "K" FetchResult.httpError 0 30).1
     (Or.inl rfl),
   (feed_failure_skips_tick emptyPoller "K" FetchResult.httpError 0 30).2 rfl⟩

/-- C8. Processing marks regardless of device outcome: when the
resolved target set (the configured ids, else every discovered
thermostat) is non-empty, `process_checkout_event` marks the event's
reservation id processed after the fan-out whatever the per-device
results — including a fan-out with zero successes — and returns the
action record; when the resolved set is empty it records the
"No thermostats found" failure and leaves the ledger untouched. -/
theorem mark_regardless_of_outcome (configured : List String)
    (devices : List Thermostat) (eff : Nat → DeviceOutcome)
    (st : PollerState) (e : CheckoutEvent) (now : Int) :
    (¬ (if configured.isEmpty then devices.map Thermostat.device_id
        else configured).isEmpty = true →
      e.reservation_id ∈
        (process_checkout_event configured devices eff st e now).2.processed_events ∧
      (process_checkout_event configured devices eff st e now).1
        = ProcessOutcome.acted (turn_off_thermostats eff
            (if configured.isEmpty then devices.map Thermostat.device_id
             else configured))) ∧
    ((if configured.isEmpty then devices.map Thermostat.device_id
      else configured).isEmpty = true →
      process_checkout_event configured devices eff st e now
        = (ProcessOutcome.noThermostats, st)) := by
  constructor
  · intro h
    simp only [process_checkout_event]
    rw [if_neg h]
    exact ⟨mem_setAdd_self st.processed_events e.reservation_id, rfl⟩
  · intro h
    simp only [process_checkout_event]
    rw [if_pos h]

/-- C8 witness: one configured device whose turn-off raises on every
call (zero successes) — the event is still marked processed and the
record carries the all-false mapping. -/
theorem mark_regardless_witness :
    ¬ ((if (["d1"] : List String).isEmpty then
          ([] : List Thermostat).map Thermostat.device_id
        else ["d1"]).isEmpty = true) ∧
    ("R" : String) ∈
      (process_checkout_event ["d1"] []
          (fun _ => DeviceOutcome.exn ExcClass.connectError) emptyPoller
          ⟨"R", 0, 0, "p", "g", "s", "d", true⟩ 7).2.processed_events ∧
    (process_checkout_event ["d1"] []
        (fun _ => DeviceOutcome.exn ExcClass.connectError) emptyPoller
        ⟨"R", 0, 0, "p", "g", "s", "d", true⟩ 7).1
      = ProcessOutcome.acted [("d1", false)] := by
  refine ⟨by decide, ?_, ?_⟩
  · exact ((mark_regardless_of_outcome ["d1"] []
      (fun _ => DeviceOutcome.exn ExcClass.connectError) emptyPoller
      ⟨"R", 0, 0, "p", "g", "s", "d", true⟩ 7).1 (by decide)).1
  · rw [((mark_regardless_of_outcome ["d1"] []
      (fun _ => DeviceOutcome.exn ExcClass.connectError) emptyPoller
      ⟨"R", 0, 0, "p", "g", "s", "d", true⟩ 7).1 (by decide)).2]
    decide

end NestCheckout
